import Mathlib

/-!
Verification development for the SQL-generation layer of a football scouting
dashboard (`src/queries.py`).  The queries are embedded shallowly: the
relational content of each generated query (CTE by CTE) is translated into
executable Lean functions over lists of records, SQL `NULL` becomes `Option`,
and the fixed regular expressions appearing in the generated SQL are given
bespoke executable matchers with the semantics of those concrete patterns.
-/

namespace Scouting

/-! ## Character and substring utilities

`matchLit p t` consumes the literal prefix `p` from `t` (case sensitive),
`matchLitCI` the same after lowercasing the text side (the pattern side is
supplied pre-lowercased).  `scanAny f t` tests `f` at every suffix of `t`,
which is the "contains" semantics of `REGEXP_CONTAINS`. -/

def matchLit : List Char → List Char → Option (List Char)
  | [], t => some t
  | _ :: _, [] => none
  | p :: ps, c :: cs => if p = c then matchLit ps cs else none

def matchLitCI : List Char → List Char → Option (List Char)
  | [], t => some t
  | _ :: _, [] => none
  | p :: ps, c :: cs => if p = c.toLower then matchLitCI ps cs else none

def isWsChar (c : Char) : Bool :=
  c = ' ' || c = '\t' || c = '\n' || c = '\r' || c = '\x0b' || c = '\x0c'

def skipWs : List Char → List Char
  | [] => []
  | c :: cs => if isWsChar c then skipWs cs else c :: cs

def scanAny (f : List Char → Bool) : List Char → Bool
  | [] => f []
  | c :: cs => f (c :: cs) || scanAny f cs

/-- Literal (case-sensitive) substring test on character lists. -/
def containsSub (p t : List Char) : Bool :=
  scanAny (fun u => (matchLit p u).isSome) t

/-- Literal substring test on strings: `strContains p t` holds when `p`
occurs contiguously inside `t`. -/
def strContains (p t : String) : Bool :=
  containsSub p.data t.data

theorem matchLit_isSome_iff (p t : List Char) :
    (matchLit p t).isSome = true ↔ ∃ suf, t = p ++ suf := by
  induction p generalizing t with
  | nil => simp [matchLit]
  | cons c ps ih =>
    cases t with
    | nil => simp [matchLit]
    | cons d ds =>
      by_cases h : c = d
      · subst h
        have h1 : matchLit (c :: ps) (c :: ds) = matchLit ps ds := by
          simp [matchLit]
        rw [h1, ih]
        constructor
        · rintro ⟨suf, rfl⟩; exact ⟨suf, rfl⟩
        · rintro ⟨suf, hsuf⟩
          refine ⟨suf, ?_⟩
          simpa using hsuf
      · have h1 : matchLit (c :: ps) (d :: ds) = none := by
          simp [matchLit, h]
        rw [h1]
        simp only [Option.isSome_none]
        constructor
        · intro hc; exact absurd hc (by simp)
        · rintro ⟨suf, hsuf⟩
          simp only [List.cons_append, List.cons.injEq] at hsuf
          exact absurd hsuf.1.symm h

theorem scanAny_iff (f : List Char → Bool) (t : List Char) :
    scanAny f t = true ↔ ∃ pre suf, t = pre ++ suf ∧ f suf = true := by
  induction t with
  | nil =>
    simp only [scanAny]
    constructor
    · intro h; exact ⟨[], [], rfl, h⟩
    · rintro ⟨pre, suf, h, hf⟩
      rcases List.append_eq_nil.mp h.symm with ⟨rfl, rfl⟩
      exact hf
  | cons c cs ih =>
    simp only [scanAny, Bool.or_eq_true, ih]
    constructor
    · rintro (h | ⟨pre, suf, rfl, hf⟩)
      · exact ⟨[], c :: cs, rfl, h⟩
      · exact ⟨c :: pre, suf, rfl, hf⟩
    · rintro ⟨pre, suf, heq, hf⟩
      cases pre with
      | nil =>
        left
        have hs : suf = c :: cs := by simpa using heq.symm
        rw [← hs]; exact hf
      | cons d ds =>
        right
        simp only [List.cons_append, List.cons.injEq] at heq
        exact ⟨ds, suf, heq.2, hf⟩

theorem containsSub_iff (p t : List Char) :
    containsSub p t = true ↔ ∃ pre suf, t = pre ++ p ++ suf := by
  unfold containsSub
  rw [scanAny_iff]
  constructor
  · rintro ⟨pre, suf, rfl, hf⟩
    rcases (matchLit_isSome_iff p suf).mp hf with ⟨rest, rfl⟩
    exact ⟨pre, rest, by simp⟩
  · rintro ⟨pre, suf, rfl⟩
    exact ⟨pre, p ++ suf, by simp, (matchLit_isSome_iff p _).mpr ⟨suf, rfl⟩⟩

/-! ## The fixed own-goal regexes

`get_dynamic_ranking_query` tags own goals with
`REGEXP_CONTAINS(e.qualifiers, r'(?i)(Own\s*Goal|Gol\s*Contra)')`:
case-insensitively, the text must contain `own`, then any run of
whitespace, then `goal` — or `gol`, whitespace, `contra`.  Since `goal`
(resp. `contra`) starts with a non-whitespace character, `\s*` can be
realised by greedily skipping the whitespace run.

`get_conversion_ranking_query` instead uses the case-sensitive
`REGEXP_CONTAINS(e.qualifiers, r'OwnGoal')`, a plain substring test. -/

def ownGoalAt (t : List Char) : Bool :=
  (match matchLitCI "own".data t with
   | some r => (matchLitCI "goal".data (skipWs r)).isSome
   | none => false) ||
  (match matchLitCI "gol".data t with
   | some r => (matchLitCI "contra".data (skipWs r)).isSome
   | none => false)

/-- Semantics of the dynamic composer's own-goal pattern
`(?i)(Own\s*Goal|Gol\s*Contra)` under contains-matching. -/
def containsOwnGoalCI (s : String) : Bool :=
  scanAny ownGoalAt s.data

/-- Semantics of the conversion composer's own-goal pattern `OwnGoal`
(case-sensitive literal) under contains-matching. -/
def containsOwnGoalLit (s : String) : Bool :=
  strContains "OwnGoal" s

/-! ## Data model

Rows of the canonical relations `all_schedule` and `all_events` produced by
`_build_schedule_union` / `_build_events_union`.  Nullable SQL columns become
`Option`; pitch coordinates are exact rationals (the generated constants are
the literal `50.0`). -/

structure ScheduleRow where
  game_id : String
  season : Int
  match_date : Option Int
  home_team : String
  away_team : String
  home_score : Option Int
  away_score : Option Int
  status : Option String
  deriving DecidableEq, Repr

structure EventRow where
  game_id : String
  team : String
  player : Option String
  player_id : Option Int
  type : String
  outcome_type : Option String
  qualifiers : String
  expanded_minute : Int
  period : String
  x : ℚ
  y : ℚ
  end_x : ℚ
  end_y : ℚ
  is_shot : Option Bool
  related_player_id : Option Int
  season : Int
  deriving DecidableEq, Repr

/-- Opponent of the event's team relative to the match record (the
home↔away swap used by both effective-team CASE expressions). -/
def opponent (e : EventRow) (m : ScheduleRow) : String :=
  if e.team = m.home_team then m.away_team
  else if e.team = m.away_team then m.home_team
  else e.team

/-- `effective_team` as computed by `get_dynamic_ranking_query`
(queries.py lines 587-597): swap on `type = 'Goal'` and the
case-insensitive `(?i)(Own\s*Goal|Gol\s*Contra)` pattern. -/
def effective_team_dynamic (e : EventRow) (m : ScheduleRow) : String :=
  if e.type = "Goal" ∧ containsOwnGoalCI e.qualifiers then opponent e m
  else e.team

/-- `effective_team` as computed by `get_conversion_ranking_query` under
the `pro` perspective (queries.py lines 825-835): swap on `type = 'Goal'`
and the case-sensitive literal pattern `OwnGoal`. -/
def effective_team_conversion_pro (e : EventRow) (m : ScheduleRow) : String :=
  if e.type = "Goal" ∧ containsOwnGoalLit e.qualifiers then opponent e m
  else e.team

/-! ## Python filter values

The filter arguments of the query builders are duck-typed: `None`, a single
string, or a list of strings.  Python's `x in v` is substring search when
`v` is a string and element membership when it is a list; truthiness is
non-emptiness.  (`x in None` would raise, but every use in the source is
guarded by short-circuit truthiness, so that branch is unreachable and its
modelled value is irrelevant.) -/

inductive PyVal where
  | pnone
  | pstr (s : String)
  | plist (l : List String)
  deriving DecidableEq, Repr

def PyVal.truthy : PyVal → Bool
  | .pnone => false
  | .pstr s => !s.isEmpty
  | .plist l => !l.isEmpty

def pyIn (x : String) : PyVal → Bool
  | .pnone => false
  | .pstr s => strContains x s
  | .plist l => l.contains x

def pyvalToList : PyVal → List String
  | .pnone => []
  | .pstr s => [s]
  | .plist l => l

/-! ## Regex escaping and the qualifier pattern

`re.escape` backslash-escapes every character that is not alphanumeric or
an underscore (a superset of the modern special-character set, with
identical matching semantics since `\c` always matches the literal `c`).
The qualifier predicate is `REGEXP_CONTAINS(qualifiers, r'p1|p2|...')`
where each `pi` is an escaped tag.  `regexpContains` below implements
contains-matching for exactly this pattern class: a top-level alternation
of atoms, where an atom is an escaped character `\c` (matching `c`
literally), a plain non-special character, or a bare `.` (matching any
character).  Patterns outside this class are not produced by the builder
and evaluate to `false`. -/

def metaChars : List Char :=
  ['.', '*', '+', '?', '(', ')', '[', ']', '\x7b', '\x7d', '|', '^', '$',
   '\\']

def isMetaChar (c : Char) : Bool :=
  metaChars.contains c

def reEscapeL : List Char → List Char
  | [] => []
  | c :: cs =>
    if c.isAlphanum || c = '_' then c :: reEscapeL cs
    else '\\' :: c :: reEscapeL cs

/-- Model of Python's `re.escape`. -/
def reEscape (s : String) : String :=
  String.mk (reEscapeL s.data)

def consFst (a : List Char) : List (List Char) → List (List Char)
  | [] => [a]
  | h :: t => (a ++ h) :: t

/-- Split a pattern on top-level `|`, keeping `\c` escape pairs intact. -/
def splitAlts : List Char → List (List Char)
  | [] => [[]]
  | c :: cs =>
    if c = '\\' then
      match cs with
      | [] => [[c]]
      | d :: ds => consFst [c, d] (splitAlts ds)
    else if c = '|' then [] :: splitAlts cs
    else consFst [c] (splitAlts cs)

inductive RAtom where
  | lit (c : Char)
  | anyChar
  deriving DecidableEq, Repr

/-- Interpret one alternative as a sequence of atoms; `none` when the
alternative uses regex syntax outside the modelled class. -/
def atomsOfAlt : List Char → Option (List RAtom)
  | [] => some []
  | c :: cs =>
    if c = '\\' then
      match cs with
      | [] => none
      | d :: ds => (atomsOfAlt ds).map (RAtom.lit d :: ·)
    else if c = '.' then (atomsOfAlt cs).map (RAtom.anyChar :: ·)
    else if isMetaChar c then none
    else (atomsOfAlt cs).map (RAtom.lit c :: ·)

def atomMatches (a : RAtom) (c : Char) : Bool :=
  match a with
  | .lit d => d = c
  | .anyChar => true

def matchesAt : List RAtom → List Char → Bool
  | [], _ => true
  | _ :: _, [] => false
  | a :: ats, c :: cs => atomMatches a c && matchesAt ats cs

/-- `REGEXP_CONTAINS(value, pat)` for alternation-of-literal patterns. -/
def regexpContains (value pat : String) : Bool :=
  (splitAlts pat.data).any fun alt =>
    match atomsOfAlt alt with
    | some ats => scanAny (fun u => matchesAt ats u) value.data
    | none => false

def interAlts : List (List Char) → List Char
  | [] => []
  | [p] => p
  | p :: ps => p ++ '|' :: interAlts ps

/-- Model of Python's `"|".join`. -/
def joinPipe (l : List String) : String :=
  String.mk (interAlts (l.map String.data))

/-! ## Filter predicate builder

Structured form of the WHERE fragments produced by `_build_filter_where`
(queries.py lines 741-792) and by the identical inline logic of
`get_dynamic_ranking_query` (lines 443-501).  `eqv`/`inv` are the
`col = 'v'` / `col IN (...)` shapes; `rgx` is the qualifier regex.  A
dimension that adds no clause is `none` (the `1=1` pass-through). -/

inductive DimPred where
  | eqv (v : String)
  | inv (vs : List String)
  | rgx (pat : String)
  deriving DecidableEq, Repr

def evalDimStr (x : String) : DimPred → Bool
  | .eqv v => x == v
  | .inv vs => vs.contains x
  | .rgx p => regexpContains x p

/-- Evaluate an optional dimension predicate on a non-nullable column. -/
def evalDim (d : Option DimPred) (x : String) : Bool :=
  match d with
  | some p => evalDimStr x p
  | none => true

/-- Evaluate an optional dimension predicate on a nullable column: a SQL
`NULL` never satisfies `=`, `IN` or `REGEXP_CONTAINS`. -/
def evalDimOpt (d : Option DimPred) (x : Option String) : Bool :=
  match d with
  | some p =>
    match x with
    | some s => evalDimStr s p
    | none => false
  | none => true

def build_type_filter (etypes : PyVal) : Option DimPred :=
  if etypes.truthy && !pyIn "Todos" etypes then
    match etypes with
    | .plist l => some (.inv l)
    | .pstr s => some (.eqv s)
    | .pnone => none
  else none

def map_outcome (o : String) : String :=
  if o = "Sucesso" then "Successful"
  else if o = "Falha" then "Unsuccessful"
  else o

def build_outcome_filter (outcomes : PyVal) : Option DimPred :=
  if outcomes.truthy && !pyIn "Todos" outcomes then
    let target := (pyvalToList outcomes).map map_outcome
    if target.isEmpty then none else some (.inv target)
  else none

def build_qualifier_filter (quals : PyVal) : Option DimPred :=
  if quals.truthy && !pyIn "Todos (Qualquer)" quals then
    let safe := ((pyvalToList quals).filter (fun q => !q.isEmpty)).map reEscape
    if safe.isEmpty then none else some (.rgx (joinPipe safe))
  else none

def build_team_filter (teams : PyVal) : Option DimPred :=
  if teams.truthy && !pyIn "Todos" teams then
    match teams with
    | .plist l => some (.inv l)
    | .pstr s => some (.eqv s)
    | .pnone => none
  else none

def build_player_filter (players : PyVal) : Option DimPred :=
  if players.truthy && !pyIn "Todos" players then
    match players with
    | .plist l => some (.inv l)
    | .pstr s => some (.eqv s)
    | .pnone => none
  else none

structure FilterSpec where
  typeF : Option DimPred
  outcomeF : Option DimPred
  qualF : Option DimPred
  teamF : Option DimPred
  playerF : Option DimPred
  deriving DecidableEq, Repr

/-- Structured form of `_build_filter_where(etypes, outcomes, quals,
teams, players)`: each dimension contributes at most one clause and the
clauses are conjoined (the team clause targets `effective_team`). -/
def build_filter_where (etypes outcomes quals teams players : PyVal) :
    FilterSpec :=
  ⟨build_type_filter etypes, build_outcome_filter outcomes,
   build_qualifier_filter quals, build_team_filter teams,
   build_player_filter players⟩

/-- Conjunction semantics of a built filter, evaluated on one event row
(its type, outcome, serialized qualifiers, effective team and player). -/
def evalFilter (f : FilterSpec) (ty : String) (outc : Option String)
    (quals : String) (eteam : String) (player : Option String) : Bool :=
  evalDim f.typeF ty && evalDimOpt f.outcomeF outc &&
    evalDim f.qualF quals && evalDim f.teamF eteam &&
    evalDimOpt f.playerF player

/-! ## Ghost-goal reconciliation

CTEs `existing_goals`, `missing_goals`, `ghost_events` and
`all_events_fixed` of `get_dynamic_ranking_query` (queries.py lines
612-680).  SQL `NULL` score arithmetic and `NULL`-valued comparisons
propagate through `Option`; `GENERATE_ARRAY(1, d)` cross-joined under
`WHERE d > 0` contributes `d` copies when `d > 0` and none otherwise. -/

def recordedGoals (events : List EventRow) (gid team : String) : Nat :=
  events.countP fun e =>
    e.game_id == gid && e.type == "Goal" && e.team == team

def optGtInt (a : Option Int) (b : Int) : Bool :=
  match a with
  | some v => b < v
  | none => false

structure MissingRow where
  game_id : String
  season : Int
  home_team : String
  away_team : String
  home_diff : Option Int
  away_diff : Option Int
  deriving DecidableEq, Repr

def missing_row_of (events : List EventRow) (m : ScheduleRow) :
    Option MissingRow :=
  if optGtInt m.home_score (recordedGoals events m.game_id m.home_team) ||
      optGtInt m.away_score (recordedGoals events m.game_id m.away_team) then
    some ⟨m.game_id, m.season, m.home_team, m.away_team,
          m.home_score.map
            (· - (recordedGoals events m.game_id m.home_team : Int)),
          m.away_score.map
            (· - (recordedGoals events m.game_id m.away_team : Int))⟩
  else none

def missing_goals (sched : List ScheduleRow) (events : List EventRow) :
    List MissingRow :=
  sched.filterMap (missing_row_of events)

/-- One synthesized placeholder goal row (the SELECT list of the
`ghost_events` CTE). -/
def ghost_row (gid team : String) (season : Int) : EventRow :=
  { game_id := gid, team := team, player := none, player_id := none,
    type := "Goal", outcome_type := some "Successful", qualifiers := "[]",
    expanded_minute := 90, period := "FullTime",
    x := 50, y := 50, end_x := 50, end_y := 50,
    is_shot := none, related_player_id := none, season := season }

def diffRows (d : Option Int) : Nat :=
  match d with
  | some v => if 0 < v then v.toNat else 0
  | none => 0

def ghost_events (sched : List ScheduleRow) (events : List EventRow) :
    List EventRow :=
  ((missing_goals sched events).flatMap fun r =>
    List.replicate (diffRows r.home_diff)
      (ghost_row r.game_id r.home_team r.season)) ++
  ((missing_goals sched events).flatMap fun r =>
    List.replicate (diffRows r.away_diff)
      (ghost_row r.game_id r.away_team r.season))

def all_events_fixed (sched : List ScheduleRow) (events : List EventRow) :
    List EventRow :=
  events ++ ghost_events sched events

/-- Number of ghost rows attributed to `(gid, team)`. -/
def ghost_count (sched : List ScheduleRow) (events : List EventRow)
    (gid team : String) : Nat :=
  (ghost_events sched events).countP fun e =>
    e.game_id == gid && e.team == team

/-! ## Enhanced event relation and metric count (dynamic composer)

The dynamic query's `events_enhanced` CTE (a single `e.*` plus the
computed column) joins `all_events_fixed` to `match_metadata` on
`game_id` and adds `effective_team`.  `dynamic_metric_count` is the
per-`(game_id, effective_team)` group size of the `filtered_events` CTE
for the team subject (`Equipes`); `effective_team IS NOT NULL` is
identically true since team columns are non-nullable in the model.
(The conversion query's `events_enhanced` is NOT given row semantics
here: it selects `e.*` twice, which makes its downstream CTEs fail name
resolution — see the column-resolution model further below.) -/

structure EnhancedRow where
  ev : EventRow
  effective_team : String
  deriving DecidableEq, Repr

def enhanceDynOver (sched : List ScheduleRow) (rel : List EventRow) :
    List EnhancedRow :=
  rel.flatMap fun e =>
    (sched.filter fun m => m.game_id == e.game_id).map fun m =>
      ⟨e, effective_team_dynamic e m⟩

def events_enhanced_dynamic (sched : List ScheduleRow)
    (events : List EventRow) : List EnhancedRow :=
  enhanceDynOver sched (all_events_fixed sched events)

def evalFilterRow (f : FilterSpec) (r : EnhancedRow) : Bool :=
  evalFilter f r.ev.type r.ev.outcome_type r.ev.qualifiers
    r.effective_team r.ev.player

def countOverDyn (sched : List ScheduleRow) (rel : List EventRow)
    (f : FilterSpec) (gid team : String) : Nat :=
  (enhanceDynOver sched rel).countP fun r =>
    r.ev.game_id == gid && r.effective_team == team && evalFilterRow f r

/-- Group size for `(gid, team)` in the `filtered_events` CTE of
`get_dynamic_ranking_query` (team subject). -/
def dynamic_metric_count (sched : List ScheduleRow) (events : List EventRow)
    (f : FilterSpec) (gid team : String) : Nat :=
  countOverDyn sched (all_events_fixed sched events) f gid team

/-! ## The conversion composer's (absent) validation

`get_conversion_ranking_query` (lines 703-901) builds both filters with
`_build_filter_where` and immediately returns the composed query text.
The Python function body contains no `raise` statement and no check of
the numerator/denominator filter shapes; the `Except` codomain exists
solely so the claimed rejection behaviour is expressible. -/

structure ConvQuery where
  whereNum : FilterSpec
  whereDen : FilterSpec
  subject : String
  deriving DecidableEq, Repr

def get_conversion_ranking_query (subject : String)
    (num_event_types num_outcomes num_qualifiers : PyVal)
    (den_event_types den_outcomes den_qualifiers : PyVal)
    (teams players : PyVal) : Except String ConvQuery :=
  Except.ok
    ⟨build_filter_where num_event_types num_outcomes num_qualifiers
        teams players,
     build_filter_where den_event_types den_outcomes den_qualifiers
        teams players,
     subject⟩

/-! ## get_player_rankings_query and its unresolved name

The function's return value is an f-string (queries.py lines 344-421)
whose interpolations, in source order, are `schedule_union` (line 346),
`events_union` (line 349), `re_assist` (line 373) and `re_key`
(line 374).  The locals assigned before the return are `project_id`,
`dataset_id`, `schedule_union`, `events_union` and `re_key`; `re_assist`
appears only in the comment "re_assist removed, using join logic"
(line 340) and is never assigned, so evaluating the f-string raises
`NameError`.  Literal text between interpolations is abbreviated below —
it cannot affect name resolution. -/

def YEARS_TO_QUERY : List Nat :=
  [2015, 2016, 2017, 2018, 2019, 2020, 2021, 2022, 2023, 2024, 2025, 2026]

def schedule_ts_col (year : Nat) : String :=
  if 2025 ≤ year then "start_time" else "date"

def schedule_fragment (project_id dataset_id : String) (year : Nat) :
    String :=
  "SELECT game_id, " ++ toString year ++ " as season, CAST(" ++
    schedule_ts_col year ++
    " as TIMESTAMP) as match_date, home_team, away_team, home_score, " ++
    "away_score, CAST(status as STRING) as status FROM `" ++ project_id ++
    "." ++ dataset_id ++ ".schedule_brasileirao_serie_a_" ++
    toString year ++ "`"

def build_schedule_union (project_id dataset_id : String) : String :=
  String.intercalate " UNION ALL "
    (YEARS_TO_QUERY.map (schedule_fragment project_id dataset_id))

def events_cols : List String :=
  ["game_id", "team", "player", "player_id", "type", "outcome_type",
   "qualifiers", "expanded_minute", "period", "x", "y", "end_x", "end_y",
   "is_shot", "related_player_id"]

def events_fragment (project_id dataset_id : String) (year : Nat) :
    String :=
  "SELECT " ++ String.intercalate ", " events_cols ++ ", " ++
    toString year ++ " as season FROM `" ++ project_id ++ "." ++
    dataset_id ++ ".eventos_brasileirao_serie_a_" ++ toString year ++ "`"

def build_events_union (project_id dataset_id : String) : String :=
  String.intercalate " UNION ALL "
    (YEARS_TO_QUERY.map (events_fragment project_id dataset_id))

def re_key_pattern : String :=
  "[\x27\"]displayName[\x27\"]\\s*:\\s*[\x27\"]KeyPass[\x27\"]"

inductive PySeg where
  | lit (s : String)
  | var (name : String)
  deriving DecidableEq, Repr

/-- Evaluate an f-string left to right; the first interpolated name that
is not bound in the environment raises a `NameError` carrying that name. -/
def renderFString (env : List (String × String)) :
    List PySeg → Except String String
  | [] => Except.ok ""
  | .lit s :: rest => (renderFString env rest).map (s ++ ·)
  | .var n :: rest =>
    match env.lookup n with
    | some v => (renderFString env rest).map (v ++ ·)
    | none => Except.error n

def player_rankings_segs : List PySeg :=
  [.lit "WITH all_schedule AS (", .var "schedule_union",
   .lit "), all_events AS (", .var "events_union",
   .lit ("), match_dates AS (SELECT game_id, match_date as start_time, " ++
     "season FROM all_schedule), player_stats AS (SELECT game_id, " ++
     "player, team, (counts...) COUNTIF(REGEXP_CONTAINS(qualifiers, r"),
   .var "re_assist",
   .lit ")) as assists, COUNTIF(REGEXP_CONTAINS(qualifiers, r",
   .var "re_key",
   .lit (")) as key_passes FROM all_events WHERE player IS NOT NULL " ++
     "GROUP BY 1, 2, 3), player_names AS (...), assist_stats AS (...) " ++
     "SELECT (final columns) FROM player_stats p LEFT JOIN assist_stats " ++
     "a ON (...) JOIN match_dates m ON p.game_id = m.game_id")]

def get_player_rankings_query (project_id dataset_id : String) :
    Except String String :=
  renderFString
    [("project_id", project_id), ("dataset_id", dataset_id),
     ("schedule_union", build_schedule_union project_id dataset_id),
     ("events_union", build_events_union project_id dataset_id),
     ("re_key", re_key_pattern)]
    player_rankings_segs

/-! ## get_match_stats_query

The `match_teams` CTE (queries.py lines 185-217) unpivots each schedule
row into a home row and an away row — and then unions the identical
away-side SELECT a second time.  `event_stats` groups `all_events` by
`(game_id, team)`; the final SELECT left-joins `match_teams` to
`event_stats` on that key, `IFNULL`-defaulting each count to 0. -/

structure MatchTeamRow where
  game_id : String
  match_date : Option Int
  season : Int
  team : String
  goals_for : Int
  goals_against : Int
  side : String
  deriving DecidableEq, Repr

def homeTeamRow (m : ScheduleRow) : MatchTeamRow :=
  ⟨m.game_id, m.match_date, m.season, m.home_team,
   m.home_score.getD 0, m.away_score.getD 0, "Mandante"⟩

def awayTeamRow (m : ScheduleRow) : MatchTeamRow :=
  ⟨m.game_id, m.match_date, m.season, m.away_team,
   m.away_score.getD 0, m.home_score.getD 0, "Visitante"⟩

/-- The `match_teams` CTE: home rows, away rows, and the duplicated
away-side UNION ALL branch. -/
def match_teams (sched : List ScheduleRow) : List MatchTeamRow :=
  sched.map homeTeamRow ++ sched.map awayTeamRow ++ sched.map awayTeamRow

def consumeQuoteChar : List Char → Option (List Char)
  | [] => none
  | c :: cs => if c = '"' || c = '\x27' then some cs else none

def consumeChar (x : Char) : List Char → Option (List Char)
  | [] => none
  | c :: cs => if c = x then some cs else none

/-- Matcher for the fixed pattern
`['"]displayName['"]\s*:\s*['"]KeyPass['"]` at the head of the text. -/
def keyPassAt (t : List Char) : Bool :=
  (do
    let r1 ← consumeQuoteChar t
    let r2 ← matchLit "displayName".data r1
    let r3 ← consumeQuoteChar r2
    let r4 ← consumeChar ':' (skipWs r3)
    let r5 ← consumeQuoteChar (skipWs r4)
    let r6 ← matchLit "KeyPass".data r5
    consumeQuoteChar r6).isSome

def hasKeyPassTag (s : String) : Bool :=
  scanAny keyPassAt s.data

structure EventStatsRow where
  match_id : String
  team : String
  total_passes : Nat
  successful_passes : Nat
  total_shots : Nat
  goals_from_events : Nat
  shots_on_target : Nat
  tackles : Nat
  interceptions : Nat
  recoveries : Nat
  clearances : Nat
  saves : Nat
  fouls : Nat
  assists : Nat
  key_passes : Nat
  deriving DecidableEq, Repr

def event_stats_for (events : List EventRow) (k : String × String) :
    EventStatsRow :=
  let evs := events.filter fun e => e.game_id == k.1 && e.team == k.2
  { match_id := k.1, team := k.2,
    total_passes := evs.countP fun e => e.type == "Pass",
    successful_passes := evs.countP fun e =>
      e.type == "Pass" && e.outcome_type == some "Successful",
    total_shots := evs.countP fun e => e.is_shot == some true,
    goals_from_events := evs.countP fun e => e.type == "Goal",
    shots_on_target := evs.countP fun e =>
      e.type == "SavedShot" || e.type == "Goal",
    tackles := evs.countP fun e => e.type == "Tackle",
    interceptions := evs.countP fun e => e.type == "Interception",
    recoveries := evs.countP fun e => e.type == "Ball Recovery",
    clearances := evs.countP fun e => e.type == "Clearance",
    saves := evs.countP fun e => e.type == "Save",
    fouls := evs.countP fun e => e.type == "Foul",
    assists := evs.countP fun e =>
      e.type == "Goal" && e.related_player_id.isSome,
    key_passes := evs.countP fun e => hasKeyPassTag e.qualifiers }

/-- The `event_stats` CTE: one row per distinct `(game_id, team)` key. -/
def event_stats (events : List EventRow) : List EventStatsRow :=
  ((events.map fun e => (e.game_id, e.team)).dedup).map
    (event_stats_for events)

structure MatchStatsOut where
  match_id : String
  match_date : Option Int
  season : Int
  team : String
  goals_for : Int
  goals_against : Int
  total_passes : Nat
  successful_passes : Nat
  total_shots : Nat
  shots_on_target : Nat
  tackles : Nat
  interceptions : Nat
  recoveries : Nat
  clearances : Nat
  saves : Nat
  fouls : Nat
  assists : Nat
  key_passes : Nat
  deriving DecidableEq, Repr

def matchStatsRowOf (t : MatchTeamRow) (e : Option EventStatsRow) :
    MatchStatsOut :=
  { match_id := t.game_id, match_date := t.match_date, season := t.season,
    team := t.team, goals_for := t.goals_for,
    goals_against := t.goals_against,
    total_passes := (e.map (·.total_passes)).getD 0,
    successful_passes := (e.map (·.successful_passes)).getD 0,
    total_shots := (e.map (·.total_shots)).getD 0,
    shots_on_target := (e.map (·.shots_on_target)).getD 0,
    tackles := (e.map (·.tackles)).getD 0,
    interceptions := (e.map (·.interceptions)).getD 0,
    recoveries := (e.map (·.recoveries)).getD 0,
    clearances := (e.map (·.clearances)).getD 0,
    saves := (e.map (·.saves)).getD 0,
    fouls := (e.map (·.fouls)).getD 0,
    assists := (e.map (·.assists)).getD 0,
    key_passes := (e.map (·.key_passes)).getD 0 }

/-- LEFT JOIN contribution of one `match_teams` row: the matching
`event_stats` rows, or a single null-filled row when there is none. -/
def left_join_rows (events : List EventRow) (t : MatchTeamRow) :
    List MatchStatsOut :=
  match (event_stats events).filter
      (fun srow => srow.match_id == t.game_id && srow.team == t.team) with
  | [] => [matchStatsRowOf t none]
  | ms => ms.map fun srow => matchStatsRowOf t (some srow)

/-- Result relation of the query built by `get_match_stats_query`
(final SELECT, lines 247-269): `match_teams LEFT JOIN event_stats`. -/
def match_stats_output (sched : List ScheduleRow)
    (events : List EventRow) : List MatchStatsOut :=
  (match_teams sched).flatMap (left_join_rows events)

/-! ## get_player_match_counts_query column resolution

The `match_metadata` CTE (line 1017) selects exactly `game_id`,
`match_date`, `season` from the schedule union, while the outer query
(lines 1020-1030) references, through the alias `m`: `m.season` in the
SELECT list, `m.game_id` in the join condition, `m.match_date` in the
date filter (only when a date range is supplied) and — unconditionally —
`m.status` in the completed-match filter.  A SQL query referencing a
column absent from the joined relation fails name resolution. -/

def player_match_counts_metadata_cols : List String :=
  ["game_id", "match_date", "season"]

def player_match_counts_m_refs
    (date_range : Option (String × Option String)) : List String :=
  ["season", "game_id"] ++
    (match date_range with
     | some _ => ["match_date"]
     | none => []) ++
    ["status"]

/-- Name resolution of the query built by `get_player_match_counts_query`
against its own `match_metadata` CTE: every column referenced through the
alias `m` must be selected by the CTE.  The `teams`/`players` filters
only reference columns of the alias `e` and cannot affect this. -/
def player_match_counts_query_resolves (_teams _players : PyVal)
    (date_range : Option (String × Option String)) : Bool :=
  (player_match_counts_m_refs date_range).all fun c =>
    player_match_counts_metadata_cols.contains c

/-! ## Conversion query structure and column resolution

`get_conversion_ranking_query`'s `events_enhanced` CTE (queries.py lines
850-859) selects `e.*` TWICE — lines 852 and 854, with a SQL comment
between the two live items — so its output relation carries every
`all_events` column twice, plus the computed `effective_team`.  The CTE's
own references are qualified and well-formed, but `cte_numerator` and
`cte_denominator` then reference event columns UNQUALIFIED (in their
SELECT list, WHERE clause and GROUP BY), and BigQuery rejects an
unqualified reference to a column name that does not occur exactly once
in the source relation ("Column name game_id is ambiguous").  `game_id`
is referenced on every code path, so every generated conversion query
fails name resolution and never produces rows.  The definitions below
list the CTE names of both generated queries, the conversion CTE's
output columns, and the unqualified column references of the two grouped
CTEs, all taken from the source text; the resolver requires each
referenced name to occur exactly once.  (The dynamic query's
`events_enhanced` selects `e.*` once and is unaffected.) -/

/-- CTE names of the SQL returned by `get_dynamic_ranking_query`
(lines 599-700); `player_names` is inserted only in related-player
player mode. -/
def get_dynamic_ranking_query_ctes (subject : String)
    (use_related_player : Bool) : List String :=
  ["all_schedule", "all_events", "match_metadata", "existing_goals",
   "missing_goals", "ghost_events", "all_events_fixed",
   "events_enhanced"] ++
  (if use_related_player ∧ subject = "Jogadores" then ["player_names"]
   else []) ++
  ["filtered_events"]

/-- CTE names of the SQL returned by `get_conversion_ranking_query`
(lines 839-901): no ghost CTEs of any kind. -/
def get_conversion_ranking_query_ctes : List String :=
  ["all_schedule", "all_events", "match_metadata", "events_enhanced",
   "cte_numerator", "cte_denominator"]

/-- Output column names of the conversion `events_enhanced` CTE:
`e.*, e.*, effective_team`, where `e` ranges over `all_events` (the 15
canonical event columns plus the injected `season`). -/
def events_enhanced_cols : List String :=
  (events_cols ++ ["season"]) ++ (events_cols ++ ["season"]) ++
    ["effective_team"]

/-- Columns referenced by the WHERE fragment built from a filter:
`type IN (...)`, `outcome_type IN (...)`,
`REGEXP_CONTAINS(qualifiers, ...)`, `player IN (...)` and the appended
`effective_team` clause, each present when the dimension built one. -/
def filter_refs (f : FilterSpec) : List String :=
  (match f.typeF with | some _ => ["type"] | none => []) ++
  (match f.outcomeF with | some _ => ["outcome_type"] | none => []) ++
  (match f.qualF with | some _ => ["qualifiers"] | none => []) ++
  (match f.playerF with | some _ => ["player"] | none => []) ++
  (match f.teamF with | some _ => ["effective_team"] | none => [])

/-- Unqualified column references of `cte_numerator` (and, with its own
filter, `cte_denominator`): the SELECT list (`select_cols`), the base
WHERE after its `team` → `effective_team` substitution, the filter
clauses, and the GROUP BY (`group_cols` after the same substitution). -/
def conversion_cte_refs (subject : String) (f : FilterSpec) :
    List String :=
  (if subject = "Jogadores" then ["game_id", "player", "team"]
   else ["game_id", "effective_team"]) ++
  (if subject = "Jogadores" then ["player"] else ["effective_team"]) ++
  filter_refs f ++
  (if subject = "Jogadores" then ["game_id", "player", "effective_team"]
   else ["game_id", "effective_team"])

/-- SQL name resolution of a list of unqualified references against a
relation's column-name list: each referenced name must occur exactly
once (absent → unrecognized; repeated → ambiguous). -/
def resolves_against (cols refs : List String) : Bool :=
  refs.all fun c => cols.count c == 1

/-- Name resolution of the grouped CTEs of the conversion query against
the (duplicated) `events_enhanced` output columns.  The outer SELECT
only uses qualified references (`n.`, `d.`, `m.`), so these two CTEs
decide the query's validity. -/
def conversion_query_resolves (subject : String) (fN fD : FilterSpec) :
    Bool :=
  resolves_against events_enhanced_cols (conversion_cte_refs subject fN) &&
    resolves_against events_enhanced_cols (conversion_cte_refs subject fD)

/-! ## General list lemmas -/

theorem countP_flatMap {α β : Type} (l : List α) (f : α → List β)
    (p : β → Bool) :
    (l.flatMap f).countP p = (l.map fun a => (f a).countP p).sum := by
  induction l with
  | nil => simp
  | cons a t ih => simp [List.flatMap_cons, List.countP_append, ih]

theorem countP_replicate {α : Type} (n : Nat) (a : α) (p : α → Bool) :
    (List.replicate n a).countP p = if p a then n else 0 := by
  induction n with
  | zero => simp
  | succ k ih =>
    rw [List.replicate_succ, List.countP_cons, ih]
    by_cases h : p a <;> simp [h]

theorem sum_map_single {α : Type} [DecidableEq α] (l : List α)
    (g : α → Nat) (a : α) (h0 : ∀ x ∈ l, x ≠ a → g x = 0)
    (h1 : l.count a = 1) : (l.map g).sum = g a := by
  induction l with
  | nil => simp [List.count_nil] at h1
  | cons x t ih =>
    by_cases hx : x = a
    · subst hx
      have ht : t.count x = 0 := by
        rw [List.count_cons_self] at h1
        omega
      have hz : ∀ y ∈ t, g y = 0 := by
        intro y hy
        by_cases hya : y = x
        · subst hya
          exact absurd hy (List.count_eq_zero.mp ht)
        · exact h0 y (List.mem_cons_of_mem _ hy) hya
      have : (t.map g).sum = 0 := by
        apply List.sum_eq_zero
        intro z hz2
        rcases List.mem_map.mp hz2 with ⟨y, hy, rfl⟩
        exact hz y hy
      simp [this]
    · have hgx : g x = 0 := h0 x (List.mem_cons_self x t) hx
      have hcount : t.count a = 1 := by
        rw [List.count_cons] at h1
        simpa [hx] using h1
      have := ih (fun y hy hya => h0 y (List.mem_cons_of_mem _ hy) hya)
        hcount
      simp [hgx, this]

theorem sum_map_filterMap {α β : Type} (l : List α) (f : α → Option β)
    (g : β → Nat) :
    ((l.filterMap f).map g).sum
      = (l.map fun a => ((f a).map g).getD 0).sum := by
  induction l with
  | nil => simp
  | cons x t ih =>
    cases hf : f x with
    | none => simp [List.filterMap_cons, hf, ih]
    | some b => simp [List.filterMap_cons, hf, ih]

theorem countP_eq_sum_map {α : Type} (l : List α) (q : α → Bool) :
    l.countP q = (l.map fun a => if q a then 1 else 0).sum := by
  induction l with
  | nil => simp
  | cons x t ih =>
    rw [List.countP_cons, ih]
    by_cases h : q x
    · simp [h]
      omega
    · simp [h]


theorem countP_unique {α : Type} [DecidableEq α] (l : List α)
    (q : α → Bool) (a : α) (h0 : ∀ x ∈ l, x ≠ a → q x = false)
    (h1 : l.count a = 1) : l.countP q = if q a then 1 else 0 := by
  rw [countP_eq_sum_map]
  exact sum_map_single l (fun x => if q x then 1 else 0) a
    (fun x hx hxa => by simp [h0 x hx hxa]) h1

/-! ## Ghost-goal counting lemmas -/

theorem diffRows_some (v : Int) : diffRows (some v) = v.toNat := by
  simp only [diffRows]
  by_cases h : 0 < v
  · simp [h]
  · simp [h, Int.toNat_of_nonpos (le_of_not_lt h)]

theorem missing_row_of_game_id (events : List EventRow) (x : ScheduleRow)
    (r : MissingRow) (h : missing_row_of events x = some r) :
    r.game_id = x.game_id := by
  unfold missing_row_of at h
  split at h
  · rw [← Option.some.inj h]
  · exact absurd h (by simp)

/-- Reduce a ghost count for match `m` to the contribution of `m`'s own
`missing_goals` row: every other schedule row has a different `game_id`
and contributes nothing. -/
theorem ghost_count_eq (sched : List ScheduleRow) (events : List EventRow)
    (m : ScheduleRow)
    (huniq : ∀ r ∈ sched, r.game_id = m.game_id → r = m)
    (hcount : sched.count m = 1) (T : String) :
    ghost_count sched events m.game_id T
      = ((missing_row_of events m).map (fun r =>
          (List.replicate (diffRows r.home_diff)
            (ghost_row r.game_id r.home_team r.season)).countP
            (fun e => e.game_id == m.game_id && e.team == T))).getD 0
      + ((missing_row_of events m).map (fun r =>
          (List.replicate (diffRows r.away_diff)
            (ghost_row r.game_id r.away_team r.season)).countP
            (fun e => e.game_id == m.game_id && e.team == T))).getD 0 := by
  have hgid : ∀ x ∈ sched, x ≠ m → (x.game_id == m.game_id) = false := by
    intro x hx hxm
    rw [beq_eq_false_iff_ne]
    exact fun h => hxm (huniq x hx h)
  unfold ghost_count ghost_events missing_goals
  rw [List.countP_append, countP_flatMap, countP_flatMap,
    sum_map_filterMap, sum_map_filterMap]
  have h1 : ∀ x ∈ sched, x ≠ m →
      ((missing_row_of events x).map (fun r =>
        (List.replicate (diffRows r.home_diff)
          (ghost_row r.game_id r.home_team r.season)).countP
          (fun e => e.game_id == m.game_id && e.team == T))).getD 0 = 0 := by
    intro x hx hxm
    cases hmr : missing_row_of events x with
    | none => simp
    | some r =>
      have hrgid := missing_row_of_game_id events x r hmr
      simp [countP_replicate, ghost_row, hrgid, hgid x hx hxm]
      exact fun h => absurd h (beq_eq_false_iff_ne.mp (hgid x hx hxm))
  have h2 : ∀ x ∈ sched, x ≠ m →
      ((missing_row_of events x).map (fun r =>
        (List.replicate (diffRows r.away_diff)
          (ghost_row r.game_id r.away_team r.season)).countP
          (fun e => e.game_id == m.game_id && e.team == T))).getD 0 = 0 := by
    intro x hx hxm
    cases hmr : missing_row_of events x with
    | none => simp
    | some r =>
      have hrgid := missing_row_of_game_id events x r hmr
      simp [countP_replicate, ghost_row, hrgid, hgid x hx hxm]
      exact fun h => absurd h (beq_eq_false_iff_ne.mp (hgid x hx hxm))
  rw [sum_map_single sched _ m h1 hcount, sum_map_single sched _ m h2 hcount]

theorem ghost_count_home (sched : List ScheduleRow) (events : List EventRow)
    (m : ScheduleRow) (s : Int)
    (huniq : ∀ r ∈ sched, r.game_id = m.game_id → r = m)
    (hcount : sched.count m = 1)
    (hne : m.home_team ≠ m.away_team)
    (hs : m.home_score = some s) :
    ghost_count sched events m.game_id m.home_team
      = (s - (recordedGoals events m.game_id m.home_team : Int)).toNat := by
  rw [ghost_count_eq sched events m huniq hcount m.home_team]
  by_cases hc : (optGtInt m.home_score
      (recordedGoals events m.game_id m.home_team) ||
    optGtInt m.away_score
      (recordedGoals events m.game_id m.away_team)) = true
  · have hmr : missing_row_of events m = some
        ⟨m.game_id, m.season, m.home_team, m.away_team,
         m.home_score.map
           (· - (recordedGoals events m.game_id m.home_team : Int)),
         m.away_score.map
           (· - (recordedGoals events m.game_id m.away_team : Int))⟩ := by
      unfold missing_row_of
      rw [if_pos hc]
    rw [hmr]
    have hne2 : m.away_team ≠ m.home_team := Ne.symm hne
    simp [countP_replicate, ghost_row, hne2, hs, diffRows_some]
  · have hmr : missing_row_of events m = none := by
      unfold missing_row_of
      rw [if_neg hc]
    rw [hmr]
    have hle : ¬ ((recordedGoals events m.game_id m.home_team : Int) < s) := by
      intro hlt
      exact hc (by simp [optGtInt, hs, hlt])
    have hnp : s - (recordedGoals events m.game_id m.home_team : Int) ≤ 0 := by
      omega
    simp [Int.toNat_of_nonpos hnp]

theorem ghost_count_away (sched : List ScheduleRow) (events : List EventRow)
    (m : ScheduleRow) (s : Int)
    (huniq : ∀ r ∈ sched, r.game_id = m.game_id → r = m)
    (hcount : sched.count m = 1)
    (hne : m.home_team ≠ m.away_team)
    (hs : m.away_score = some s) :
    ghost_count sched events m.game_id m.away_team
      = (s - (recordedGoals events m.game_id m.away_team : Int)).toNat := by
  rw [ghost_count_eq sched events m huniq hcount m.away_team]
  by_cases hc : (optGtInt m.home_score
      (recordedGoals events m.game_id m.home_team) ||
    optGtInt m.away_score
      (recordedGoals events m.game_id m.away_team)) = true
  · have hmr : missing_row_of events m = some
        ⟨m.game_id, m.season, m.home_team, m.away_team,
         m.home_score.map
           (· - (recordedGoals events m.game_id m.home_team : Int)),
         m.away_score.map
           (· - (recordedGoals events m.game_id m.away_team : Int))⟩ := by
      unfold missing_row_of
      rw [if_pos hc]
    rw [hmr]
    simp [countP_replicate, ghost_row, hne, hs, diffRows_some]
  · have hmr : missing_row_of events m = none := by
      unfold missing_row_of
      rw [if_neg hc]
    rw [hmr]
    have hle : ¬ ((recordedGoals events m.game_id m.away_team : Int) < s) := by
      intro hlt
      exact hc (by simp [optGtInt, hs, hlt])
    have hnp : s - (recordedGoals events m.game_id m.away_team : Int) ≤ 0 := by
      omega
    simp [Int.toNat_of_nonpos hnp]

theorem ghost_events_shape (sched : List ScheduleRow)
    (events : List EventRow) :
    ∀ e ∈ ghost_events sched events, ∃ gid tm sn, e = ghost_row gid tm sn := by
  intro e he
  rcases List.mem_append.mp he with h | h <;>
  · rcases List.mem_flatMap.mp h with ⟨r, _, hr⟩
    exact ⟨_, _, _, List.eq_of_mem_replicate hr⟩

/-! ## Escaped-pattern lemmas (for the qualifier predicate) -/

theorem isMeta_of_keep (c : Char) (h : (c.isAlphanum || c = '_') = true) :
    isMetaChar c = false := by
  by_contra hh
  have hm : isMetaChar c = true := by
    cases hm2 : isMetaChar c
    · exact absurd hm2 hh
    · rfl
  have hmem : c ∈ metaChars := by
    simpa [isMetaChar, List.elem_iff] using hm
  simp only [metaChars, List.mem_cons, List.not_mem_nil, or_false] at hmem
  rcases hmem with rfl | rfl | rfl | rfl | rfl | rfl | rfl | rfl | rfl |
    rfl | rfl | rfl | rfl | rfl <;>
    exact absurd h (by decide)

theorem keep_ne (c : Char) (h : (c.isAlphanum || c = '_') = true) :
    c ≠ '\\' ∧ c ≠ '|' ∧ c ≠ '.' := by
  have hm := isMeta_of_keep c h
  refine ⟨?_, ?_, ?_⟩ <;> rintro rfl <;> exact absurd hm (by decide)

theorem consFst_ne_nil (a : List Char) (l : List (List Char)) :
    consFst a l ≠ [] := by
  cases l <;> simp [consFst]

theorem consFst_consFst (a b : List Char) (l : List (List Char)) :
    consFst a (consFst b l) = consFst (a ++ b) l := by
  cases l <;> simp [consFst]

theorem consFst_nil_left (l : List (List Char)) (h : l ≠ []) :
    consFst [] l = l := by
  cases l with
  | nil => exact absurd rfl h
  | cons x t => simp [consFst]

theorem splitAlts_esc (c : Char) (cs : List Char) :
    splitAlts ('\\' :: c :: cs) = consFst ['\\', c] (splitAlts cs) := by
  rfl

theorem splitAlts_bar (cs : List Char) :
    splitAlts ('|' :: cs) = [] :: splitAlts cs := by
  unfold splitAlts
  rw [if_neg (by decide : ¬ ('|' : Char) = '\\'), if_pos rfl,
    ← splitAlts.eq_def]

theorem splitAlts_other (c : Char) (cs : List Char) (h1 : c ≠ '\\')
    (h2 : c ≠ '|') : splitAlts (c :: cs) = consFst [c] (splitAlts cs) := by
  unfold splitAlts
  rw [if_neg h1, if_neg h2, ← splitAlts.eq_def]

theorem splitAlts_ne_nil (t : List Char) : splitAlts t ≠ [] := by
  cases t with
  | nil => simp [splitAlts]
  | cons c cs =>
    by_cases h1 : c = '\\'
    · subst h1
      cases cs with
      | nil => simp [splitAlts]
      | cons d ds => rw [splitAlts_esc]; exact consFst_ne_nil _ _
    · by_cases h2 : c = '|'
      · subst h2; rw [splitAlts_bar]; simp
      · rw [splitAlts_other c cs h1 h2]; exact consFst_ne_nil _ _

theorem reEscapeL_keep (c : Char) (cs : List Char)
    (h : (c.isAlphanum || c = '_') = true) :
    reEscapeL (c :: cs) = c :: reEscapeL cs := by
  simp [reEscapeL, h]

theorem reEscapeL_esc (c : Char) (cs : List Char)
    (h : ¬ (c.isAlphanum || c = '_') = true) :
    reEscapeL (c :: cs) = '\\' :: c :: reEscapeL cs := by
  simp only [reEscapeL, if_neg h]

theorem splitAlts_escape_append (s r : List Char) :
    splitAlts (reEscapeL s ++ r) = consFst (reEscapeL s) (splitAlts r) := by
  induction s with
  | nil =>
    simp only [reEscapeL, List.nil_append]
    exact (consFst_nil_left _ (splitAlts_ne_nil r)).symm
  | cons c cs ih =>
    by_cases hk : (c.isAlphanum || c = '_') = true
    · have hne := keep_ne c hk
      rw [reEscapeL_keep c cs hk, List.cons_append,
        splitAlts_other c _ hne.1 hne.2.1, ih, consFst_consFst]
      simp
    · rw [reEscapeL_esc c cs hk, List.cons_append, List.cons_append,
        splitAlts_esc, ih, consFst_consFst]
      simp

theorem splitAlts_interAlts (parts : List (List Char)) (h : parts ≠ []) :
    splitAlts (interAlts (parts.map reEscapeL)) = parts.map reEscapeL := by
  induction parts with
  | nil => exact absurd rfl h
  | cons p ps ih =>
    cases ps with
    | nil =>
      show splitAlts (interAlts [reEscapeL p]) = [reEscapeL p]
      have h1 : interAlts [reEscapeL p] = reEscapeL p ++ [] := by simp [interAlts]
      rw [h1, splitAlts_escape_append]
      simp [splitAlts, consFst]
    | cons q qs =>
      have h1 : interAlts ((p :: q :: qs).map reEscapeL)
          = reEscapeL p ++ '|' :: interAlts ((q :: qs).map reEscapeL) := rfl
      rw [h1, splitAlts_escape_append, splitAlts_bar, ih (by simp)]
      simp [consFst]

theorem atomsOfAlt_esc (c : Char) (cs : List Char) :
    atomsOfAlt ('\\' :: c :: cs) = (atomsOfAlt cs).map (RAtom.lit c :: ·) := by
  rfl

theorem atomsOfAlt_other (c : Char) (cs : List Char) (h1 : c ≠ '\\')
    (h2 : c ≠ '.') (h3 : isMetaChar c = false) :
    atomsOfAlt (c :: cs) = (atomsOfAlt cs).map (RAtom.lit c :: ·) := by
  unfold atomsOfAlt
  rw [if_neg h1, if_neg h2, h3]
  simp only [Bool.false_eq_true, if_false]
  rw [← atomsOfAlt.eq_def]

theorem atoms_reEscapeL (s : List Char) :
    atomsOfAlt (reEscapeL s) = some (s.map RAtom.lit) := by
  induction s with
  | nil => rfl
  | cons c cs ih =>
    by_cases hk : (c.isAlphanum || c = '_') = true
    · have hne := keep_ne c hk
      have hm := isMeta_of_keep c hk
      rw [reEscapeL_keep c cs hk, atomsOfAlt_other c _ hne.1 hne.2.2 hm, ih]
      rfl
    · rw [reEscapeL_esc c cs hk, atomsOfAlt_esc, ih]
      rfl

theorem matchesAt_lit (p t : List Char) :
    matchesAt (p.map RAtom.lit) t = (matchLit p t).isSome := by
  induction p generalizing t with
  | nil => simp [matchesAt, matchLit]
  | cons c cs ih =>
    cases t with
    | nil => simp [matchesAt, matchLit]
    | cons d ds =>
      by_cases h : c = d
      · simp [matchesAt, matchLit, atomMatches, h, ih]
      · simp [matchesAt, matchLit, atomMatches, h]

theorem scanAny_congr (f g : List Char → Bool) (h : ∀ u, f u = g u)
    (t : List Char) : scanAny f t = scanAny g t := by
  induction t with
  | nil => simp [scanAny, h]
  | cons c cs ih => simp [scanAny, h, ih]

theorem any_congr_fun {α : Type} (l : List α) (f g : α → Bool)
    (h : ∀ a, f a = g a) : l.any f = l.any g := by
  induction l with
  | nil => rfl
  | cons x t ih => simp [List.any_cons, h x, ih]

theorem any_map_congr {α β : Type} (l : List α) (f : α → β) (g : β → Bool)
    (q : α → Bool) (hp : ∀ a, g (f a) = q a) :
    (l.map f).any g = l.any q := by
  induction l with
  | nil => rfl
  | cons x t ih => simp [List.any_cons, hp x, ih]

/-- The qualifier pattern built from escaped tags matches a text exactly
when some tag occurs literally in the text. -/
theorem regexpContains_escaped (qs : List String) (text : String)
    (h : qs ≠ []) :
    regexpContains text (joinPipe (qs.map reEscape))
      = qs.any (fun q => strContains q text) := by
  unfold regexpContains joinPipe
  have hmm : (qs.map reEscape).map String.data
      = (qs.map String.data).map reEscapeL := by
    rw [List.map_map, List.map_map]
    rfl
  show ((splitAlts ((qs.map reEscape).map String.data |> interAlts)).any _) = _
  rw [hmm, splitAlts_interAlts (qs.map String.data) (by simpa using h),
    List.map_map]
  apply any_map_congr
  intro q
  show (match atomsOfAlt (reEscapeL q.data) with
        | some ats => scanAny (fun u => matchesAt ats u) text.data
        | none => false) = strContains q text
  rw [atoms_reEscapeL]
  show scanAny (fun u => matchesAt (q.data.map RAtom.lit) u) text.data
      = strContains q text
  unfold strContains containsSub
  exact scanAny_congr _ _ (fun u => matchesAt_lit q.data u) text.data

/-! ## Concrete rows used by witnesses and counterexamples -/

/-- Match `A vs B`, official score 2-0, no recorded events. -/
def witMatch : ScheduleRow :=
  ⟨"g1", 2025, none, "A", "B", some 2, some 0, none⟩

/-- Match `A vs B`, official score 1-0. -/
def exMatchAB : ScheduleRow :=
  ⟨"g1", 2025, none, "A", "B", some 1, some 0, none⟩

/-- A recorded goal by team `A` in match `g1`, qualifier text carrying the
`Gol Contra` own-goal tag. -/
def ogEvent : EventRow :=
  ⟨"g1", "A", none, none, "Goal", some "Successful", "Gol Contra", 10,
   "FirstHalf", 50, 50, 50, 50, none, none, 2025⟩

/-! ## Claim C1 — own-goal reattribution pattern -/

/-- C1 counterexample: for the own-goal event tagged `Gol Contra` (scored
by `A` in the match `A vs B`), the dynamic composer's `effective_team` is
the opponent `B`, but the conversion composer's (`pro` perspective)
`effective_team` stays `A`, because its pattern is the case-sensitive
literal `OwnGoal`; the claim, which asserts the case-insensitive
`Own Goal`/`Gol Contra` swap for both composers, fails. -/
theorem claim_C1_counterexample :
    containsOwnGoalCI ogEvent.qualifiers = true ∧
    effective_team_dynamic ogEvent exMatchAB = "B" ∧
    effective_team_conversion_pro ogEvent exMatchAB = "A" ∧
    effective_team_conversion_pro ogEvent exMatchAB ≠ exMatchAB.away_team := by
  refine ⟨by decide, by decide, by decide, by decide⟩

/-- C1 amended: for every event whose team is one of the match's two
teams, the dynamic composer's `effective_team` is the home↔away swap
exactly when the event is a `Goal` whose qualifiers match the
case-insensitive `Own Goal`/`Gol Contra` pattern (literal team
otherwise), while the conversion composer (`pro`) swaps exactly when the
event is a `Goal` whose qualifiers contain the case-sensitive literal
`OwnGoal`. -/
theorem claim_C1_amended (e : EventRow) (m : ScheduleRow)
    (h : e.team = m.home_team ∨ e.team = m.away_team) :
    (effective_team_dynamic e m
      = if e.type = "Goal" ∧ containsOwnGoalCI e.qualifiers = true
        then (if e.team = m.home_team then m.away_team else m.home_team)
        else e.team) ∧
    (effective_team_conversion_pro e m
      = if e.type = "Goal" ∧ containsOwnGoalLit e.qualifiers = true
        then (if e.team = m.home_team then m.away_team else m.home_team)
        else e.team) := by
  have hop : opponent e m
      = if e.team = m.home_team then m.away_team else m.home_team := by
    unfold opponent
    by_cases h1 : e.team = m.home_team
    · simp [h1]
    · rcases h with h2 | h2
      · exact absurd h2 h1
      · simp [h1, h2]
  constructor
  · unfold effective_team_dynamic
    rw [hop]
  · unfold effective_team_conversion_pro
    rw [hop]

/-- C1 amended, witness at the `Gol Contra` event in `A vs B`. -/
theorem claim_C1_witness :
    effective_team_dynamic ogEvent exMatchAB
      = (if ogEvent.type = "Goal" ∧ containsOwnGoalCI ogEvent.qualifiers = true
         then (if ogEvent.team = exMatchAB.home_team then exMatchAB.away_team
               else exMatchAB.home_team)
         else ogEvent.team) :=
  (claim_C1_amended ogEvent exMatchAB (Or.inl rfl)).1

/-! ## Claim C2 — ghost-goal deficit counting -/

/-- C2: for a match `m` occurring exactly once in the schedule (and with
distinct home/away teams), whenever a side's official score is non-null,
the number of ghost rows attributed to that side's team in that match is
the official score minus the recorded `Goal` count, clipped at 0; and
every ghost row carries null player and player_id, minute 90, the fixed
pitch position (50,50)→(50,50), outcome `Successful` and empty (`[]`)
qualifiers. -/
theorem claim_C2 (sched : List ScheduleRow) (events : List EventRow)
    (m : ScheduleRow)
    (huniq : ∀ r ∈ sched, r.game_id = m.game_id → r = m)
    (hcount : sched.count m = 1)
    (hne : m.home_team ≠ m.away_team) :
    (∀ s : Int, m.home_score = some s →
      ghost_count sched events m.game_id m.home_team
        = (s - (recordedGoals events m.game_id m.home_team : Int)).toNat) ∧
    (∀ s : Int, m.away_score = some s →
      ghost_count sched events m.game_id m.away_team
        = (s - (recordedGoals events m.game_id m.away_team : Int)).toNat) ∧
    (∀ e ∈ ghost_events sched events,
      e.player = none ∧ e.player_id = none ∧ e.expanded_minute = 90 ∧
      e.x = 50 ∧ e.y = 50 ∧ e.end_x = 50 ∧ e.end_y = 50 ∧
      e.outcome_type = some "Successful" ∧ e.qualifiers = "[]" ∧
      e.type = "Goal") := by
  refine ⟨fun s hs => ghost_count_home sched events m s huniq hcount hne hs,
    fun s hs => ghost_count_away sched events m s huniq hcount hne hs, ?_⟩
  intro e he
  rcases ghost_events_shape sched events e he with ⟨gid, tm, sn, rfl⟩
  exact ⟨rfl, rfl, rfl, rfl, rfl, rfl, rfl, rfl, rfl, rfl⟩

/-- C2 witness: a 2-0 match with no recorded events gets exactly 2 ghost
goals for the home team. -/
theorem claim_C2_witness :
    ghost_count [witMatch] [] "g1" "A" = 2 := by
  have h := (claim_C2 [witMatch] [] witMatch (by decide) (by decide)
    (by decide)).1 2 rfl
  exact h.trans (by decide)

/-! ## Conversion-query resolution lemmas (shared by C3 and C4) -/

theorem game_id_mem_conversion_cte_refs (subject : String)
    (f : FilterSpec) : "game_id" ∈ conversion_cte_refs subject f := by
  unfold conversion_cte_refs
  by_cases h : subject = "Jogadores" <;> simp [h]

theorem resolves_against_enhanced_false (refs : List String)
    (h : "game_id" ∈ refs) :
    resolves_against events_enhanced_cols refs = false := by
  unfold resolves_against
  cases hall : refs.all fun c => events_enhanced_cols.count c == 1
  · rfl
  · have h2 := List.all_eq_true.mp hall "game_id" h
    exact absurd h2 (by decide)

/-- Every conversion query fails name resolution: `game_id` is always
referenced unqualified by the grouped CTEs, and the doubled `e.*` makes
it occur twice in `events_enhanced`. -/
theorem conversion_query_never_resolves (subject : String)
    (fN fD : FilterSpec) :
    conversion_query_resolves subject fN fD = false := by
  unfold conversion_query_resolves
  rw [resolves_against_enhanced_false _
    (game_id_mem_conversion_cte_refs subject fN)]
  rfl

/-! ## Claim C3 — ghost rows feed only the dynamic composer -/

/-- C3 counterexample: the dynamic query's generated SQL contains the
ghost CTEs (`ghost_events`, `all_events_fixed`) but the conversion
query's SQL contains neither — and, because its `events_enhanced`
selects `e.*` twice, the conversion query does not even pass name
resolution, so no count it would aggregate is computed over the
reconciled event relation (none is computed at all). -/
theorem claim_C3_counterexample :
    "ghost_events" ∈ get_dynamic_ranking_query_ctes "Equipes" false ∧
    "all_events_fixed" ∈ get_dynamic_ranking_query_ctes "Equipes" false ∧
    "ghost_events" ∉ get_conversion_ranking_query_ctes ∧
    "all_events_fixed" ∉ get_conversion_ranking_query_ctes ∧
    conversion_query_resolves "Equipes"
      (build_filter_where .pnone .pnone .pnone .pnone .pnone)
      (build_filter_where .pnone .pnone .pnone .pnone .pnone) = false := by
  refine ⟨by decide, by decide, by decide, by decide, by decide⟩

/-- C3 amended: only the dynamic composer appends the synthesized ghost
rows to the event relation before aggregation — its count for any group
splits as (count over recorded events) + (count over ghost rows), and
its generated SQL carries the ghost CTEs.  The conversion composer's
generated SQL contains no ghost CTEs at all, and because its
`events_enhanced` selects `e.*` twice, every conversion query fails
BigQuery name resolution and performs no aggregation whatsoever. -/
theorem claim_C3_amended (sched : List ScheduleRow) (events : List EventRow)
    (f : FilterSpec) (gid team : String) (subject : String)
    (use_related_player : Bool) (csubject : String) (fN fD : FilterSpec) :
    dynamic_metric_count sched events f gid team
      = countOverDyn sched events f gid team
        + countOverDyn sched (ghost_events sched events) f gid team ∧
    "ghost_events" ∈
      get_dynamic_ranking_query_ctes subject use_related_player ∧
    "ghost_events" ∉ get_conversion_ranking_query_ctes ∧
    conversion_query_resolves csubject fN fD = false := by
  refine ⟨?_, ?_, by decide, conversion_query_never_resolves csubject fN fD⟩
  · unfold dynamic_metric_count countOverDyn all_events_fixed enhanceDynOver
    rw [List.flatMap_append, List.countP_append]
  · unfold get_dynamic_ranking_query_ctes
    simp

/-! ## Claim C4 — the conversion query produces no result rows -/

/-- C4 counterexample: at a concrete Goal-over-Pass conversion request
the generated query fails BigQuery name resolution — the grouped CTEs
select `game_id` unqualified from an `events_enhanced` relation that,
due to the doubled `e.*`, carries `game_id` twice — so executing the
query is an error and no output row exists.  This contradicts the
claim, which asserts a ratio value ("not an error") for the query's
output rows. -/
theorem claim_C4_counterexample :
    events_enhanced_cols.count "game_id" = 2 ∧
    "game_id" ∈ conversion_cte_refs "Equipes"
      (build_filter_where (.pstr "Goal") .pnone .pnone .pnone .pnone) ∧
    conversion_query_resolves "Equipes"
      (build_filter_where (.pstr "Goal") .pnone .pnone .pnone .pnone)
      (build_filter_where (.pstr "Pass") .pnone .pnone .pnone .pnone)
      = false := by
  refine ⟨by decide, by decide, by decide⟩

/-- C4 amended: the conversion query never produces a result relation:
its `events_enhanced` CTE duplicates every event column (`e.*, e.*`),
both grouped CTEs reference `game_id` unqualified on every code path,
and the query therefore fails name resolution for every subject and
filter combination — execution yields an error, never rows carrying a
ratio. -/
theorem claim_C4_amended (subject : String) (fN fD : FilterSpec) :
    events_enhanced_cols.count "game_id" = 2 ∧
    "game_id" ∈ conversion_cte_refs subject fN ∧
    "game_id" ∈ conversion_cte_refs subject fD ∧
    conversion_query_resolves subject fN fD = false :=
  ⟨by decide, game_id_mem_conversion_cte_refs subject fN,
   game_id_mem_conversion_cte_refs subject fD,
   conversion_query_never_resolves subject fN fD⟩

/-! ## Claim C5 — no rejection of empty event-type sets -/

/-- C5 counterexample: with an empty numerator event-type list the
composer still returns a query (no error), and the built numerator
type predicate is the pass-through `none` — the request is not
rejected. -/
theorem claim_C5_counterexample :
    ((get_conversion_ranking_query "Equipes" (.plist []) .pnone .pnone
        (.pstr "Pass") .pnone .pnone .pnone .pnone).toOption.map
      fun q => q.whereNum.typeF) = some none := by
  decide

/-- C5 amended: `get_conversion_ranking_query` never raises — it returns
a query for every input — and an empty event-type collection simply
contributes no type predicate (the count is unconstrained by type),
exactly like the `None` sentinel. -/
theorem claim_C5_amended (subject : String)
    (nET nO nQ dET dO dQ t p : PyVal) :
    (get_conversion_ranking_query subject nET nO nQ dET dO dQ
        t p).toOption.isSome = true ∧
    build_type_filter (.plist []) = none ∧
    build_type_filter .pnone = none :=
  ⟨rfl, rfl, rfl⟩

/-! ## Claim C6 — sentinel/empty pass-through, singleton equivalence -/

theorem strContains_self (s : String) : strContains s s = true := by
  unfold strContains
  rw [containsSub_iff]
  exact ⟨[], [], by simp⟩

theorem contains_of_mem (a : String) (l : List String) (h : a ∈ l) :
    l.contains a = true := by
  show l.elem a = true
  exact List.elem_iff.mpr h

/-- C6 counterexample: the event-type dimension treats the single string
`TodosX` as unconstrained (Python substring `in`), while the one-element
list `["TodosX"]` yields a restrictive `IN` predicate (element `in`) —
the two predicates disagree on the event type `Goal`, so the claimed
singleton/one-element equivalence fails. -/
theorem claim_C6_counterexample :
    build_type_filter (.pstr "TodosX") = none ∧
    build_type_filter (.plist ["TodosX"]) = some (.inv ["TodosX"]) ∧
    evalDim (build_type_filter (.pstr "TodosX")) "Goal" = true ∧
    evalDim (build_type_filter (.plist ["TodosX"])) "Goal" = false := by
  refine ⟨by decide, by decide, by decide, by decide⟩

/-- C6 amended: in every filter dimension, the `None` sentinel, the empty
collection, the exact unconstrained sentinel string and any collection
containing the sentinel all yield no restrictive predicate; and a single
string `s` yields a predicate equivalent to the one-element collection
`[s]` — provided `s` is non-empty and does not contain the dimension's
sentinel (`Todos`, resp. `Todos (Qualquer)`) as a substring (without the
proviso the equivalence fails, see the counterexample). -/
theorem claim_C6_amended (s x : String) (ox : Option String)
    (hs : s ≠ "")
    (hsent : strContains "Todos" s = false)
    (hqual : strContains "Todos (Qualquer)" s = false) :
    (build_type_filter .pnone = none ∧ build_type_filter (.plist []) = none ∧
     build_type_filter (.pstr "Todos") = none ∧
     (∀ l, "Todos" ∈ l → build_type_filter (.plist l) = none)) ∧
    (build_outcome_filter .pnone = none ∧
     build_outcome_filter (.plist []) = none ∧
     build_outcome_filter (.pstr "Todos") = none ∧
     (∀ l, "Todos" ∈ l → build_outcome_filter (.plist l) = none)) ∧
    (build_qualifier_filter .pnone = none ∧
     build_qualifier_filter (.plist []) = none ∧
     build_qualifier_filter (.pstr "Todos (Qualquer)") = none ∧
     (∀ l, "Todos (Qualquer)" ∈ l →
        build_qualifier_filter (.plist l) = none)) ∧
    (build_team_filter .pnone = none ∧ build_team_filter (.plist []) = none ∧
     build_team_filter (.pstr "Todos") = none ∧
     (∀ l, "Todos" ∈ l → build_team_filter (.plist l) = none)) ∧
    (build_player_filter .pnone = none ∧
     build_player_filter (.plist []) = none ∧
     build_player_filter (.pstr "Todos") = none ∧
     (∀ l, "Todos" ∈ l → build_player_filter (.plist l) = none)) ∧
    evalDim (build_type_filter (.pstr s)) x
      = evalDim (build_type_filter (.plist [s])) x ∧
    evalDimOpt (build_outcome_filter (.pstr s)) ox
      = evalDimOpt (build_outcome_filter (.plist [s])) ox ∧
    evalDim (build_qualifier_filter (.pstr s)) x
      = evalDim (build_qualifier_filter (.plist [s])) x ∧
    evalDim (build_team_filter (.pstr s)) x
      = evalDim (build_team_filter (.plist [s])) x ∧
    evalDimOpt (build_player_filter (.pstr s)) ox
      = evalDimOpt (build_player_filter (.plist [s])) ox := by
  have hsE : (!s.isEmpty) = true := by
    cases hse : s.isEmpty
    · rfl
    · exact absurd ((String.isEmpty_iff s).mp hse) hs
  have hsT : s ≠ "Todos" := by
    rintro rfl
    rw [strContains_self] at hsent
    exact absurd hsent (by decide)
  have hsQ : s ≠ "Todos (Qualquer)" := by
    rintro rfl
    rw [strContains_self] at hqual
    exact absurd hqual (by decide)
  have ht1 : build_type_filter (.pstr s) = some (.eqv s) := by
    simp [build_type_filter, PyVal.truthy, pyIn, hsE, hsent]
  have ht2 : build_type_filter (.plist [s]) = some (.inv [s]) := by
    simp [build_type_filter, PyVal.truthy, pyIn, Ne.symm hsT]
  have ho1 : build_outcome_filter (.pstr s) = some (.inv [map_outcome s]) := by
    simp [build_outcome_filter, PyVal.truthy, pyIn, hsE, hsent, pyvalToList]
  have ho2 : build_outcome_filter (.plist [s])
      = some (.inv [map_outcome s]) := by
    simp [build_outcome_filter, PyVal.truthy, pyIn, Ne.symm hsT, pyvalToList]
  have hq1 : build_qualifier_filter (.pstr s)
      = some (.rgx (joinPipe [reEscape s])) := by
    simp [build_qualifier_filter, PyVal.truthy, pyIn, hsE, hqual,
      pyvalToList]
  have hq2 : build_qualifier_filter (.plist [s])
      = some (.rgx (joinPipe [reEscape s])) := by
    simp [build_qualifier_filter, PyVal.truthy, pyIn, hsE, Ne.symm hsQ,
      pyvalToList]
  have hm1 : build_team_filter (.pstr s) = some (.eqv s) := by
    simp [build_team_filter, PyVal.truthy, pyIn, hsE, hsent]
  have hm2 : build_team_filter (.plist [s]) = some (.inv [s]) := by
    simp [build_team_filter, PyVal.truthy, pyIn, Ne.symm hsT]
  have hp1 : build_player_filter (.pstr s) = some (.eqv s) := by
    simp [build_player_filter, PyVal.truthy, pyIn, hsE, hsent]
  have hp2 : build_player_filter (.plist [s]) = some (.inv [s]) := by
    simp [build_player_filter, PyVal.truthy, pyIn, Ne.symm hsT]
  refine ⟨⟨rfl, rfl, by decide, fun l hl => ?_⟩,
    ⟨rfl, rfl, by decide, fun l hl => ?_⟩,
    ⟨rfl, rfl, by decide, fun l hl => ?_⟩,
    ⟨rfl, rfl, by decide, fun l hl => ?_⟩,
    ⟨rfl, rfl, by decide, fun l hl => ?_⟩, ?_, ?_, ?_, ?_, ?_⟩
  · simp [build_type_filter, pyIn, contains_of_mem _ _ hl]
    exact fun _ => hl
  · simp [build_outcome_filter, pyIn, contains_of_mem _ _ hl]
    intro _ hn
    exact absurd hl hn
  · simp [build_qualifier_filter, pyIn, contains_of_mem _ _ hl]
    intro _ hn
    exact absurd hl hn
  · simp [build_team_filter, pyIn, contains_of_mem _ _ hl]
    exact fun _ => hl
  · simp [build_player_filter, pyIn, contains_of_mem _ _ hl]
    exact fun _ => hl
  · rw [ht1, ht2]
    simp only [evalDim, evalDimStr]
    by_cases hxy : x = s <;> simp [hxy]
  · rw [ho1, ho2]
  · rw [hq1, hq2]
  · rw [hm1, hm2]
    simp only [evalDim, evalDimStr]
    by_cases hxy : x = s <;> simp [hxy]
  · rw [hp1, hp2]
    cases ox with
    | none => rfl
    | some v =>
      simp only [evalDimOpt, evalDimStr]
      by_cases hvy : v = s <;> simp [hvy]

/-- C6 amended, witness at the non-sentinel value `Goal`. -/
theorem claim_C6_witness :
    evalDim (build_type_filter (.pstr "Goal")) "Pass"
      = evalDim (build_type_filter (.plist ["Goal"])) "Pass" :=
  (claim_C6_amended "Goal" "Pass" (some "Out") (by decide) (by decide)
    (by decide)).2.2.2.2.2.1

/-! ## Claim C7 — escaped tags, literal matching, OR semantics -/

/-- C7: whenever the qualifier dimension builds a regex predicate from a
tag selection, that predicate holds on a serialized qualifiers text
exactly when SOME selected (non-empty) tag occurs in the text — and
"occurs" is literal containment (the text decomposes around the exact
tag characters), so regex metacharacters inside a tag cannot alter the
pattern. -/
theorem claim_C7 (quals : List String) (text pat : String)
    (h : build_qualifier_filter (.plist quals) = some (.rgx pat)) :
    regexpContains text pat
      = (quals.filter (fun q => !q.isEmpty)).any
          (fun q => strContains q text) ∧
    (regexpContains text pat = true ↔
      ∃ q ∈ quals, q ≠ "" ∧ ∃ pre suf, text.data = pre ++ q.data ++ suf) := by
  unfold build_qualifier_filter at h
  by_cases hg : (PyVal.truthy (.plist quals) &&
      !pyIn "Todos (Qualquer)" (.plist quals)) = true
  case neg =>
    rw [if_neg hg] at h
    exact absurd h (by simp)
  rw [if_pos hg] at h
  simp only [pyvalToList] at h
  by_cases he :
      (((quals.filter fun q => !q.isEmpty).map reEscape).isEmpty) = true
  · rw [if_pos he] at h
    exact absurd h (by simp)
  · rw [if_neg he] at h
    simp only [Option.some.injEq, DimPred.rgx.injEq] at h
    have hfil : quals.filter (fun q => !q.isEmpty) ≠ [] := by
      intro hnil
      rw [hnil] at he
      exact he rfl
    rw [← h]
    refine ⟨regexpContains_escaped _ text hfil, ?_⟩
    rw [regexpContains_escaped _ text hfil, List.any_eq_true]
    constructor
    · rintro ⟨q, hq, hqc⟩
      rw [List.mem_filter] at hq
      refine ⟨q, hq.1, ?_, ?_⟩
      · intro hq0
        rw [hq0] at hq
        exact absurd hq.2 (by decide)
      · exact (containsSub_iff q.data text.data).mp hqc
    · rintro ⟨q, hq, hq0, pre, suf, heq⟩
      refine ⟨q, List.mem_filter.mpr ⟨hq, ?_⟩, ?_⟩
      · cases hqe : q.isEmpty
        · rfl
        · exact absurd ((String.isEmpty_iff q).mp hqe) hq0
      · exact (containsSub_iff q.data text.data).mpr ⟨pre, suf, heq⟩

/-- C7 witness: tags `a.c` (carrying a regex metacharacter) and `Head`;
the text contains `Head` but not the literal `a.c`, and the predicate
holds by the OR semantics — while the text `xaycz`, which the unescaped
pattern `a.c` would match, is rejected. -/
theorem claim_C7_witness :
    regexpContains "with Head tag" (joinPipe [reEscape "a.c", reEscape "Head"])
      = true ∧
    regexpContains "xaycz" (joinPipe [reEscape "a.c", reEscape "Head"])
      = false := by
  have h1 := (claim_C7 ["a.c", "Head"] "with Head tag"
    (joinPipe [reEscape "a.c", reEscape "Head"]) (by decide)).1
  have h2 := (claim_C7 ["a.c", "Head"] "xaycz"
    (joinPipe [reEscape "a.c", reEscape "Head"]) (by decide)).1
  rw [h1, h2]
  decide

/-! ## Claim C8 — get_player_rankings_query raises NameError -/

/-- C8: for every project/dataset input, evaluating the return f-string
of `get_player_rankings_query` fails on the unbound name `re_assist`
(a `NameError`); the function never produces a SQL string. -/
theorem claim_C8 (project_id dataset_id : String) :
    get_player_rankings_query project_id dataset_id
      = Except.error "re_assist" := rfl

/-! ## Claim C9 — duplicated away branch in get_match_stats_query -/

theorem countP_beq_le_one_of_nodup {α : Type} [BEq α] [LawfulBEq α]
    (l : List α) (h : l.Nodup) (a : α) :
    l.countP (fun x => x == a) ≤ 1 := by
  induction l with
  | nil => simp
  | cons x t ih =>
    rw [List.countP_cons]
    rcases List.nodup_cons.mp h with ⟨hx, ht⟩
    by_cases hxa : (x == a) = true
    · have hxa2 : x = a := eq_of_beq hxa
      subst hxa2
      have hz : t.countP (fun y => y == x) = 0 := by
        apply List.countP_eq_zero.mpr
        intro y hy hb
        exact hx (eq_of_beq hb ▸ hy)
      simp [hz, hxa]
    · simpa [hxa] using ih ht

theorem event_stats_filter_len (events : List EventRow) (a b : String) :
    ((event_stats events).filter
      (fun srow => srow.match_id == a && srow.team == b)).length ≤ 1 := by
  unfold event_stats
  rw [List.filter_map, List.length_map, ← List.countP_eq_length_filter]
  have hcg : ((events.map fun e => (e.game_id, e.team)).dedup).countP
      ((fun srow => srow.match_id == a && srow.team == b) ∘
        event_stats_for events)
      = ((events.map fun e => (e.game_id, e.team)).dedup).countP
        (fun k => k == (a, b)) := by
    apply List.countP_congr
    intro k _
    obtain ⟨k1, k2⟩ := k
    rfl
  rw [hcg]
  exact countP_beq_le_one_of_nodup _
    (List.nodup_dedup (events.map fun e => (e.game_id, e.team))) (a, b)

/-- Each `match_teams` row contributes exactly one row to the final
LEFT JOIN output, carrying that row's `(game_id, team)` key. -/
theorem match_stats_contribution (events : List EventRow)
    (t : MatchTeamRow) (p : String → String → Bool) :
    (left_join_rows events t).countP (fun r => p r.match_id r.team)
      = if p t.game_id t.team then 1 else 0 := by
  have hlen := event_stats_filter_len events t.game_id t.team
  unfold left_join_rows
  cases hfl : (event_stats events).filter
      (fun srow => srow.match_id == t.game_id && srow.team == t.team) with
  | nil =>
    simp [List.countP_cons, matchStatsRowOf]
  | cons srow rest =>
    rw [hfl] at hlen
    have hrest : rest = [] := by
      simp only [List.length_cons] at hlen
      cases rest with
      | nil => rfl
      | cons y ys => simp at hlen
    subst hrest
    simp [List.countP_cons, matchStatsRowOf]

theorem match_stats_output_countP (sched : List ScheduleRow)
    (events : List EventRow) (p : String → String → Bool) :
    (match_stats_output sched events).countP (fun r => p r.match_id r.team)
      = (match_teams sched).countP (fun t => p t.game_id t.team) := by
  unfold match_stats_output
  rw [countP_flatMap]
  have hpt : ∀ t : MatchTeamRow,
      (left_join_rows events t).countP (fun r => p r.match_id r.team)
        = if p t.game_id t.team then 1 else 0 :=
    fun t => match_stats_contribution events t p
  simp only [hpt]
  rw [← countP_eq_sum_map]

/-- C9: for a match `m` occurring exactly once in the schedule (distinct
home/away teams), the `match_teams` CTE contains the away-team row twice
and the home-team row once (three rows for the match in total), and the
final LEFT JOIN output of `get_match_stats_query` likewise contains two
rows keyed `(m.game_id, m.away_team)` — the away-team stat line is
duplicated. -/
theorem claim_C9 (sched : List ScheduleRow) (events : List EventRow)
    (m : ScheduleRow)
    (huniq : ∀ r ∈ sched, r.game_id = m.game_id → r = m)
    (hcount : sched.count m = 1)
    (hne : m.home_team ≠ m.away_team) :
    (match_teams sched).countP
      (fun t => t.game_id == m.game_id && t.team == m.away_team) = 2 ∧
    (match_teams sched).countP
      (fun t => t.game_id == m.game_id && t.team == m.home_team) = 1 ∧
    (match_teams sched).countP (fun t => t.game_id == m.game_id) = 3 ∧
    (match_stats_output sched events).countP
      (fun r => r.match_id == m.game_id && r.team == m.away_team) = 2 := by
  have key : ∀ (f : ScheduleRow → MatchTeamRow) (q : MatchTeamRow → Bool),
      (∀ x : ScheduleRow, x.game_id ≠ m.game_id → q (f x) = false) →
      (sched.map f).countP q = if q (f m) then 1 else 0 := by
    intro f q hq
    rw [List.countP_map]
    exact countP_unique sched _ m
      (fun x hx hxm => hq x (fun h => hxm (huniq x hx h))) hcount
  have hne2 : m.home_team ≠ m.away_team := hne
  have e1 : (sched.map homeTeamRow).countP
      (fun t => t.game_id == m.game_id && t.team == m.away_team) = 0 := by
    rw [key homeTeamRow _
      (fun x hx => by simp [homeTeamRow, beq_eq_false_iff_ne.mpr hx])]
    simp [homeTeamRow, hne2]
  have e2 : (sched.map awayTeamRow).countP
      (fun t => t.game_id == m.game_id && t.team == m.away_team) = 1 := by
    rw [key awayTeamRow _
      (fun x hx => by simp [awayTeamRow, beq_eq_false_iff_ne.mpr hx])]
    simp [awayTeamRow]
  have e3 : (sched.map homeTeamRow).countP
      (fun t => t.game_id == m.game_id && t.team == m.home_team) = 1 := by
    rw [key homeTeamRow _
      (fun x hx => by simp [homeTeamRow, beq_eq_false_iff_ne.mpr hx])]
    simp [homeTeamRow]
  have e4 : (sched.map awayTeamRow).countP
      (fun t => t.game_id == m.game_id && t.team == m.home_team) = 0 := by
    rw [key awayTeamRow _
      (fun x hx => by simp [awayTeamRow, beq_eq_false_iff_ne.mpr hx])]
    simp [awayTeamRow, Ne.symm hne2]
  have e5h : (sched.map homeTeamRow).countP
      (fun t => t.game_id == m.game_id) = 1 := by
    rw [key homeTeamRow _
      (fun x hx => by simp [homeTeamRow, beq_eq_false_iff_ne.mpr hx])]
    simp [homeTeamRow]
  have e5a : (sched.map awayTeamRow).countP
      (fun t => t.game_id == m.game_id) = 1 := by
    rw [key awayTeamRow _
      (fun x hx => by simp [awayTeamRow, beq_eq_false_iff_ne.mpr hx])]
    simp [awayTeamRow]
  have hteamsA : (match_teams sched).countP
      (fun t => t.game_id == m.game_id && t.team == m.away_team) = 2 := by
    unfold match_teams
    rw [List.countP_append, List.countP_append, e1, e2]
  have hteamsH : (match_teams sched).countP
      (fun t => t.game_id == m.game_id && t.team == m.home_team) = 1 := by
    unfold match_teams
    rw [List.countP_append, List.countP_append, e3, e4]
  have hteamsG : (match_teams sched).countP
      (fun t => t.game_id == m.game_id) = 3 := by
    unfold match_teams
    rw [List.countP_append, List.countP_append, e5h, e5a]
  refine ⟨hteamsA, hteamsH, hteamsG, ?_⟩
  exact (match_stats_output_countP sched events
    (fun a b => a == m.game_id && b == m.away_team)).trans hteamsA

/-- C9 witness: the 2-0 schedule row with an empty event log produces a
`match_teams` relation with the away row twice and an output with two
away-team lines. -/
theorem claim_C9_witness :
    (match_teams [witMatch]).countP
      (fun t => t.game_id == "g1" && t.team == "B") = 2 ∧
    (match_stats_output [witMatch] []).countP
      (fun r => r.match_id == "g1" && r.team == "B") = 2 := by
  have h := claim_C9 [witMatch] [] witMatch (by decide) (by decide)
    (by decide)
  exact ⟨h.1, h.2.2.2⟩

/-! ## Claim C10 — get_player_match_counts_query references m.status -/

/-- C10: the outer query of `get_player_match_counts_query` always
references `m.status`, the `match_metadata` CTE never selects `status`,
and hence the generated query never resolves, for every combination of
team/player filters and date range. -/
theorem claim_C10 (teams players : PyVal)
    (date_range : Option (String × Option String)) :
    "status" ∈ player_match_counts_m_refs date_range ∧
    "status" ∉ player_match_counts_metadata_cols ∧
    player_match_counts_query_resolves teams players date_range = false := by
  refine ⟨?_, by decide, ?_⟩
  · cases date_range <;> simp [player_match_counts_m_refs]
  · cases date_range <;> rfl

end Scouting
